import Mathlib

/-!
Verification of the map-animation / frame-capture / video-encoding pipeline.

The definitions below are a shallow embedding of the pure cores of the
JavaScript/TypeScript sources:
  - `DirectoryVideoEncoder` (appended to `src/components/MapExample2.js`):
    `addDebugMessage`, `loadFilesFromDirectory`, `startEncoding`,
    `handleMessage`;
  - `src/components/MapExample2.tsx`: `calculateCoordinates`,
    `updateTrailPoints`, `cleanupTempDirectory`, `ensureFramesDirectory`,
    the setup phase of `startAnimation`;
  - `src/components/MapExample.js`: `getBoatPosition`;
  - `src/components/WebViewVideoEncoder.js`: the validation prefix of
    `createVideo`.

File-system effects (directory existence, file writes) are modelled by
explicit state values and explicit lists of performed writes; the
asynchronous posting loop of `startEncoding` is modelled as the list of
events (posted messages and sleeps) it performs, in order.
-/

namespace AnimationSave

/-! ### `addDebugMessage` (DirectoryVideoEncoder, MapExample2.js lines 423-427)

The new entry `[ts] msg` is prepended and the previous list is truncated to
its first 19 entries (`prev.slice(0, 19)`). -/

def addDebugMessage (timestamp message : String) (prev : List String) : List String :=
  ("[" ++ timestamp ++ "] " ++ message) :: prev.take 19

/-! ### `loadFilesFromDirectory` (DirectoryVideoEncoder, MapExample2.js lines 440-483)

The pure core: filter the directory listing by `filename.endsWith(filePattern)`
and sort by the integer obtained by deleting every non-digit character
(`parseInt` of the filename with non-digits deleted).  The JavaScript
`Array.prototype.sort` with a consistent comparator produces a list sorted
with respect to that comparator;
we embed it with insertion sort over the same key order. -/

def digitChars (s : String) : List Char :=
  s.data.filter (fun c => c.isDigit)

def digitsToNat (cs : List Char) : Nat :=
  cs.foldl (fun n c => 10 * n + (c.toNat - Char.toNat (Char.ofNat 0x30))) 0

def numToken (s : String) : Nat :=
  digitsToNat (digitChars s)

def tokenLE (a b : String) : Prop :=
  numToken a ≤ numToken b

instance : DecidableRel tokenLE := fun a b => inferInstanceAs (Decidable (numToken a ≤ numToken b))

instance : IsTotal String tokenLE := ⟨fun a b => Nat.le_total (numToken a) (numToken b)⟩

instance : IsTrans String tokenLE := ⟨fun _ _ _ h1 h2 => Nat.le_trans h1 h2⟩

def loadFilesFromDirectory (filePattern : String) (files : List String) : List String :=
  List.insertionSort tokenLE (files.filter (fun f => f.endsWith filePattern))

/-! ### Scratch directory setup (MapExample2.tsx lines 37-54 and 231-244)

The frames scratch directory is modelled as either absent or present with a
list of contained files.  `cleanupTempDirectory` deletes the directory when it
exists; `ensureFramesDirectory` creates it (empty) when it does not; the setup
phase of `startAnimation` runs them in that order. -/

inductive DirState where
  | absent : DirState
  | present : List String → DirState
deriving DecidableEq

def DirState.dirExists : DirState → Bool
  | absent => false
  | present _ => true

def cleanupTempDirectory (s : DirState) : DirState :=
  if s.dirExists then DirState.absent else s

def ensureFramesDirectory (s : DirState) : DirState :=
  if !s.dirExists then DirState.present [] else s

def startAnimationSetup (s : DirState) : DirState :=
  ensureFramesDirectory (cleanupTempDirectory s)

/-! ### Circular-motion sampling (MapExample2.tsx lines 24-31 and 126-139,
MapExample.js lines 12-15 and 150-156)

`calculateCoordinates` samples the marker position at a given elapsed angle
(degrees), optionally adding a sinusoidal vertical bounce;
`getBoatPosition` is the bounce-free variant of MapExample.js with its own
center constants. -/

@[ext]
structure Coordinate where
  latitude : ℝ
  longitude : ℝ

def CENTER_LATITUDE : ℝ := 26.7690

def CENTER_LONGITUDE : ℝ := -77.3031

def RADIUS : ℝ := 0.005

def BOUNCE_AMPLITUDE : ℝ := 0.0005

noncomputable def calculateCoordinates (angle : ℝ) (includeVerticalBounce : Bool) : Coordinate :=
  let radians := angle * Real.pi / 180
  let verticalBounce :=
    if includeVerticalBounce then Real.sin (angle * Real.pi / 22.5) * BOUNCE_AMPLITUDE else 0
  { latitude := CENTER_LATITUDE + RADIUS * Real.cos radians + verticalBounce
    longitude := CENTER_LONGITUDE + RADIUS * Real.sin radians }

namespace MapExample

def CENTER_LATITUDE : ℝ := 37.78825

def CENTER_LONGITUDE : ℝ := -122.4324

noncomputable def getBoatPosition (angle : ℝ) : Coordinate :=
  let radians := angle * Real.pi / 180
  { latitude := CENTER_LATITUDE + RADIUS * Real.cos radians
    longitude := CENTER_LONGITUDE + RADIUS * Real.sin radians }

end MapExample

/-! ### Trail points (MapExample2.tsx lines 142-150)

On each tick `updateTrailPoints` receives the new angle, computes the new
coordinate (with bounce), and either resets the trail to a single point (when
the angle is zero or the previous trail is empty) or appends the point. -/

open scoped Classical in
noncomputable def updateTrailPoints (newAngle : ℝ) (prev : List Coordinate) :
    List Coordinate :=
  let coordinate := calculateCoordinates newAngle true
  if newAngle = 0 ∨ prev = [] then [coordinate] else prev ++ [coordinate]

/-! ### `startEncoding` message trace (DirectoryVideoEncoder, MapExample2.js
lines 540-616)

After loading the (filtered, sorted) file list, `startEncoding` posts one
`initEncoder` envelope, sleeps 250 ms, then walks the list in batches of
`BATCH_SIZE = 10` (`for (let batchStart = 0; batchStart < fileUris.length;
batchStart += BATCH_SIZE)`), posting one `encodeBatch` envelope per batch
(each image tagged with its global index) and sleeping 100 ms after each, and
finally posts one `finalizeEncoding` envelope.  The trace of posts and sleeps
is modelled as a list of events. -/

inductive PostedMsg where
  | initEncoder : (framerate : Nat) → (quality : ℚ) → (totalFrames : Nat) → PostedMsg
  | encodeBatch : (images : List (Nat × String)) → (batchIndex : Nat) →
      (totalBatches : Nat) → PostedMsg
  | finalizeEncoding : PostedMsg
deriving DecidableEq

inductive EncEvent where
  | post : PostedMsg → EncEvent
  | sleep : (ms : Nat) → EncEvent
deriving DecidableEq

def BATCH_SIZE : Nat := 10

def batchEvents (totalBatches batchStart : Nat) : List String → List EncEvent
  | [] => []
  | f :: rest =>
    EncEvent.post (PostedMsg.encodeBatch
        (((f :: rest).take BATCH_SIZE).enum.map (fun p => (batchStart + p.1, p.2)))
        (batchStart / BATCH_SIZE) totalBatches)
      :: EncEvent.sleep 100
      :: batchEvents totalBatches (batchStart + BATCH_SIZE) ((f :: rest).drop BATCH_SIZE)
termination_by l => l.length
decreasing_by
  simp only [List.length_drop, List.length_cons, BATCH_SIZE]
  omega

def startEncodingEvents (fps : Nat) (fileUris : List String) : List EncEvent :=
  if fileUris.isEmpty then []
  else
    EncEvent.post (PostedMsg.initEncoder fps (95 / 100 : ℚ) fileUris.length)
      :: EncEvent.sleep 250
      :: (batchEvents ((fileUris.length + BATCH_SIZE - 1) / BATCH_SIZE) 0 fileUris
          ++ [EncEvent.post PostedMsg.finalizeEncoding])

/-- Spec-side extraction: the image payload of an `encodeBatch` post. -/
def EncEvent.batchImages : EncEvent → Option (List (Nat × String))
  | .post (.encodeBatch images _ _) => some images
  | _ => none

/-- Spec-side extraction: the batch payloads of a trace, in order. -/
def batchesOf (evs : List EncEvent) : List (List (Nat × String)) :=
  evs.filterMap EncEvent.batchImages

def isInitPost : EncEvent → Bool
  | .post (.initEncoder _ _ _) => true
  | _ => false

def isFinalizePost : EncEvent → Bool
  | .post .finalizeEncoding => true
  | _ => false

def isBatchPost : EncEvent → Bool
  | .post (.encodeBatch _ _ _) => true
  | _ => false

/-- Spec-side check: every `encodeBatch` post is immediately followed by a
100 ms sleep. -/
def sleepFollowsEachBatch : List EncEvent → Bool
  | [] => true
  | e :: rest =>
    (!isBatchPost e || decide (rest.head? = some (EncEvent.sleep 100)))
      && sleepFollowsEachBatch rest

/-! ### Coordinator message handling (DirectoryVideoEncoder, MapExample2.js
lines 486-537) and the `startEncoding` catch branch (lines 612-615)

`handleMessage` dispatches on the renderer envelope type.  Component state is
the four pipeline fields; file writes performed by the handler are returned
explicitly.  `writeOk` tells whether `writeAsStringAsync` succeeds; when the
write throws, the surrounding catch only appends a debug entry, leaving
`videoUri` and `status` untouched. -/

structure EncoderState where
  status : String
  progress : ℚ
  videoUri : Option String
  debugInfo : List String
deriving DecidableEq

structure FileWrite where
  path : String
  contents : String
deriving DecidableEq

inductive WVMessage where
  | log : (message : String) → WVMessage
  | status : (message : String) → WVMessage
  | progress : (p : ℚ) → WVMessage
  | video : (videoData : String) → WVMessage
  | error : (message : String) → WVMessage
  | debug : (message : String) → WVMessage
deriving DecidableEq

/-- The base64 payload of the video data URL: the substring after the first
comma (JS `split` at commas, taken at index 1). -/
def base64Payload (videoData : String) : String :=
  ((videoData.splitOn ",").drop 1).headD ""

def handleMessage (docDir : String) (now : Nat) (ts : String) (writeOk : Bool)
    (st : EncoderState) (m : WVMessage) : EncoderState × List FileWrite :=
  match m with
  | .log message =>
      ({ st with debugInfo := addDebugMessage ts ("WebView log: " ++ message) st.debugInfo }, [])
  | .status message =>
      ({ st with status := message }, [])
  | .progress p =>
      ({ st with progress := p }, [])
  | .video videoData =>
      let d1 := addDebugMessage ts
        ("Received video data: " ++ videoData.take 50 ++ "...") st.debugInfo
      let base64Data := base64Payload videoData
      let fileName := docDir ++ "output_" ++ toString now ++ ".mp4"
      let d2 := addDebugMessage ts ("Saving to: " ++ fileName) d1
      if writeOk then
        ({ st with debugInfo := d2, videoUri := some fileName, status := "Video ready" },
          [⟨fileName, base64Data⟩])
      else
        ({ st with debugInfo := addDebugMessage ts "Error parsing message" d2 }, [])
  | .error message =>
      ({ st with
          status := "Error: " ++ message,
          debugInfo := addDebugMessage ts ("ERROR: " ++ message) st.debugInfo }, [])
  | .debug message =>
      ({ st with debugInfo := addDebugMessage ts ("WebView Debug: " ++ message) st.debugInfo }, [])

/-- The catch branch of `startEncoding`: log and surface the error as a
human-readable status string; nothing else changes and nothing is retried. -/
def startEncodingCatch (st : EncoderState) (errorMessage : String) : EncoderState :=
  { st with status := "Error: " ++ errorMessage }

/-! ### `WebViewVideoEncoder.createVideo` input validation
(WebViewVideoEncoder.js lines 29-52)

`fileUris` is `none` when the option is absent; `fileExistsOn` is the
file-system existence oracle consulted by `getInfoAsync`.  The loop throws at
the first missing file. -/

namespace WebViewVideoEncoder

def createVideo (fileUris : Option (List String)) (fileExistsOn : String → Bool) :
    Except String Unit :=
  match fileUris with
  | none => Except.error "No input files provided"
  | some l =>
      if l.isEmpty then Except.error "No input files provided"
      else
        match l.find? (fun u => !fileExistsOn u) with
        | some u => Except.error ("File not found: " ++ u)
        | none => Except.ok ()

end WebViewVideoEncoder

/-- A concrete 12-frame directory listing (two batches: 10 + 2). -/
def sampleFiles : List String :=
  ["b01.png", "b02.png", "b03.png", "b04.png", "b05.png", "b06.png",
   "b07.png", "b08.png", "b09.png", "b10.png", "b11.png", "b12.png"]

/-! ## Theorems -/

/-- C1: for every captured file list whose filenames each contain a numeric
token and whose tokens are monotonic in capture order, the sort performed by
`loadFilesFromDirectory` (comparing the integers obtained by deleting all
non-digit characters) yields a list whose embedded numeric tokens appear in
non-decreasing order. -/
theorem loadFilesFromDirectory_tokens_nondecreasing (filePattern : String)
    (files : List String)
    (hdig : ∀ f ∈ files, digitChars f ≠ [])
    (hmono : List.Sorted (· ≤ ·) (files.map numToken)) :
    List.Sorted (· ≤ ·) ((loadFilesFromDirectory filePattern files).map numToken) := by
  have h := List.sorted_insertionSort tokenLE (files.filter (fun f => f.endsWith filePattern))
  rw [loadFilesFromDirectory, List.Sorted, List.pairwise_map]
  exact h

/-- Witness for C1 at a concrete directory listing: tokens 3, 10, 12 are
monotonic in capture order and come out in non-decreasing order. -/
theorem loadFilesFromDirectory_tokens_nondecreasing_witness :
    List.Sorted (· ≤ ·)
      ((loadFilesFromDirectory ".png"
        ["frame_3.png", "frame_10.png", "frame_12.png"]).map numToken) :=
  loadFilesFromDirectory_tokens_nondecreasing ".png"
    ["frame_3.png", "frame_10.png", "frame_12.png"] (by decide) (by decide)

/-- C3: after the setup phase of `startAnimation` (delete the scratch
directory, then recreate it), the frames scratch directory exists and contains
no files, for every prior state of the directory. -/
theorem startAnimationSetup_directory_empty (s : DirState) :
    startAnimationSetup s = DirState.present [] := by
  cases s <;> rfl

/-- C10: every call to `addDebugMessage` yields a list of at most 20 entries,
whose head is the single new timestamped entry and whose tail is the previous
list truncated to its first 19 entries. -/
theorem addDebugMessage_bounded (timestamp message : String) (prev : List String) :
    (addDebugMessage timestamp message prev).length ≤ 20 ∧
    (addDebugMessage timestamp message prev).head? =
      some ("[" ++ timestamp ++ "] " ++ message) ∧
    (addDebugMessage timestamp message prev).tail = prev.take 19 := by
  refine ⟨?_, rfl, rfl⟩
  simp only [addDebugMessage, List.length_cons, List.length_take]
  omega

/-- The three trigonometric sampling formulas are 360-periodic: both the
latitude/longitude circle terms (period 360 in the angle argument of
`cos(a*pi/180)` / `sin(a*pi/180)`) and the bounce term
`sin(a*pi/22.5)` (360 / 22.5 = 16 half-turns = 8 full turns). -/
theorem calculateCoordinates_add_360 (a : ℝ) (b : Bool) :
    calculateCoordinates (a + 360) b = calculateCoordinates a b := by
  have h1 : (a + 360) * Real.pi / 180 = a * Real.pi / 180 + 2 * Real.pi := by ring
  have h2 : (a + 360) * Real.pi / 22.5 = a * Real.pi / 22.5 + (8 : ℕ) * (2 * Real.pi) := by
    have h : (22.5 : ℝ) = 45 / 2 := by norm_num
    rw [h]
    push_cast
    ring
  simp only [calculateCoordinates, h1, h2, Real.cos_add_two_pi, Real.sin_add_two_pi,
    Real.sin_add_nat_mul_two_pi]

/-- C2: the position-sampling function is periodic with period 360 — with and
without the vertical bounce term — the position at 360 equals the starting
position at 0, and the bounce-free sampler `getBoatPosition` of MapExample.js
is 360-periodic as well. -/
theorem position_sampling_periodic_360 :
    (∀ (a : ℝ) (b : Bool), calculateCoordinates (a + 360) b = calculateCoordinates a b) ∧
    (∀ b : Bool, calculateCoordinates 360 b = calculateCoordinates 0 b) ∧
    (∀ a : ℝ, MapExample.getBoatPosition (a + 360) = MapExample.getBoatPosition a) := by
  refine ⟨calculateCoordinates_add_360, ?_, ?_⟩
  · intro b
    have h := calculateCoordinates_add_360 0 b
    rwa [zero_add] at h
  · intro a
    have h1 : (a + 360) * Real.pi / 180 = a * Real.pi / 180 + 2 * Real.pi := by ring
    simp only [MapExample.getBoatPosition, h1, Real.cos_add_two_pi, Real.sin_add_two_pi]

/-- C6: on each tick the trail is extended by exactly one coordinate appended
at the end when the new angle is non-zero (including from an empty trail), and
is reset to the single new point when the angle wraps to zero. -/
theorem updateTrailPoints_append_or_reset (newAngle : ℝ) (prev : List Coordinate) :
    (newAngle ≠ 0 →
      updateTrailPoints newAngle prev = prev ++ [calculateCoordinates newAngle true]) ∧
    (newAngle = 0 →
      updateTrailPoints newAngle prev = [calculateCoordinates newAngle true]) := by
  constructor
  · intro h
    rcases eq_or_ne prev [] with rfl | hp
    · simp [updateTrailPoints]
    · simp [updateTrailPoints, h, hp]
  · intro h
    simp [updateTrailPoints, h]

/-- Witness for C6 at concrete inputs: angle 1 appends to a one-point trail,
angle 0 resets the trail. -/
theorem updateTrailPoints_append_or_reset_witness :
    updateTrailPoints 1 [calculateCoordinates 0 true] =
      [calculateCoordinates 0 true] ++ [calculateCoordinates 1 true] ∧
    updateTrailPoints 0 [calculateCoordinates 0 true] =
      [calculateCoordinates 0 true] :=
  ⟨(updateTrailPoints_append_or_reset 1 [calculateCoordinates 0 true]).1 one_ne_zero,
   (updateTrailPoints_append_or_reset 0 [calculateCoordinates 0 true]).2 rfl⟩

/-- Tagging each enumerated entry with a shifted global index and then
projecting the payload recovers the original list. -/
theorem enum_map_pair_snd (s : Nat) (l : List String) :
    ((l.enum.map (fun p => (s + p.1, p.2))).map Prod.snd) = l := by
  rw [List.map_map]
  have h : (Prod.snd ∘ fun p : Nat × String => (s + p.1, p.2)) = Prod.snd := by
    funext p
    rfl
  rw [h, List.enum_map_snd]

/-- The image filenames carried by the batch posts of `batchEvents`,
concatenated in order, are exactly the file list it was given. -/
theorem batchEvents_join (tb s : Nat) (l : List String) :
    ((batchesOf (batchEvents tb s l)).map (fun b => b.map Prod.snd)).flatten = l := by
  induction s, l using batchEvents.induct tb with
  | case1 s => simp [batchEvents, batchesOf]
  | case2 s f rest ih =>
    rw [batchEvents]
    simp only [batchesOf, List.filterMap_cons, EncEvent.batchImages, List.map_cons,
      List.flatten_cons]
    rw [enum_map_pair_snd]
    rw [batchesOf] at ih
    rw [ih, List.take_append_drop]

/-- `batchEvents` produces no batch from an empty list and at least one from a
non-empty list. -/
theorem batchesOf_batchEvents_eq_nil_iff (tb s : Nat) (l : List String) :
    batchesOf (batchEvents tb s l) = [] ↔ l = [] := by
  cases l with
  | nil => simp [batchEvents, batchesOf]
  | cons f rest =>
    rw [batchEvents]
    simp [batchesOf, EncEvent.batchImages]

/-- Every batch posted by `batchEvents` is non-empty and holds at most
`BATCH_SIZE` images. -/
theorem batchesOf_batchEvents_sizes (tb s : Nat) (l : List String) :
    ∀ b ∈ batchesOf (batchEvents tb s l), b ≠ [] ∧ b.length ≤ BATCH_SIZE := by
  induction s, l using batchEvents.induct tb with
  | case1 s => simp [batchEvents, batchesOf]
  | case2 s f rest ih =>
    rw [batchEvents]
    simp only [batchesOf, List.filterMap_cons, EncEvent.batchImages]
    intro b hb
    rcases List.mem_cons.mp hb with rfl | hb
    · constructor
      · intro hnil
        have := congrArg List.length hnil
        simp [BATCH_SIZE] at this
      · simp [BATCH_SIZE]
    · exact ih b hb

/-- Every batch posted by `batchEvents` except possibly the last holds exactly
`BATCH_SIZE` images. -/
theorem batchesOf_batchEvents_full (tb s : Nat) (l : List String) :
    ∀ b ∈ (batchesOf (batchEvents tb s l)).dropLast, b.length = BATCH_SIZE := by
  induction s, l using batchEvents.induct tb with
  | case1 s => simp [batchEvents, batchesOf]
  | case2 s f rest ih =>
    rw [batchEvents]
    simp only [batchesOf, List.filterMap_cons, EncEvent.batchImages]
    intro b hb
    by_cases hrec : batchesOf (batchEvents tb (s + BATCH_SIZE) ((f :: rest).drop BATCH_SIZE)) = []
    · rw [batchesOf] at hrec
      rw [hrec] at hb
      simp at hb
    · rw [List.dropLast_cons_of_ne_nil (by rw [batchesOf] at hrec; exact hrec)] at hb
      rcases List.mem_cons.mp hb with rfl | hb
      · have hlen : ¬ (f :: rest).drop BATCH_SIZE = [] := by
          intro h
          exact hrec ((batchesOf_batchEvents_eq_nil_iff tb (s + BATCH_SIZE) _).mpr h)
        have hge : BATCH_SIZE ≤ (f :: rest).length := by
          by_contra hlt
          exact hlen (List.drop_eq_nil_of_le (Nat.le_of_not_le hlt))
        simp only [List.length_map, List.enum_length, List.length_take]
        simp only [BATCH_SIZE] at hge ⊢
        omega
      · exact ih b hb

/-- `batchEvents` posts no `initEncoder` and no `finalizeEncoding` envelope. -/
theorem batchEvents_no_init_no_finalize (tb s : Nat) (l : List String) :
    (batchEvents tb s l).countP isInitPost = 0 ∧
    (batchEvents tb s l).countP isFinalizePost = 0 := by
  induction s, l using batchEvents.induct tb with
  | case1 s => simp [batchEvents]
  | case2 s f rest ih =>
    rw [batchEvents]
    simp only [List.countP_cons, isInitPost, isFinalizePost]
    simp [ih.1, ih.2]

/-- In the concatenation of `batchEvents` with the final `finalizeEncoding`
post, every `encodeBatch` post is immediately followed by a 100 ms sleep. -/
theorem sleepFollowsEachBatch_batchEvents (tb s : Nat) (l : List String) :
    sleepFollowsEachBatch
      (batchEvents tb s l ++ [EncEvent.post PostedMsg.finalizeEncoding]) = true := by
  induction s, l using batchEvents.induct tb with
  | case1 s => simp [batchEvents, sleepFollowsEachBatch, isBatchPost]
  | case2 s f rest ih =>
    rw [batchEvents]
    simp only [List.cons_append]
    rw [sleepFollowsEachBatch, sleepFollowsEachBatch]
    simp [isBatchPost, ih]

/-- C4: for every non-empty loaded file list, `startEncoding` posts exactly
one `initEncoder` message first, then posts every frame file, in the loaded
(sorted) order with none skipped or duplicated, in consecutive `encodeBatch`
messages of fixed size 10 (the final batch possibly smaller), waits a fixed
100 ms after each batch, and finally posts exactly one `finalizeEncoding`
message, which comes last. -/
theorem startEncoding_message_protocol (fps : Nat) (fileUris : List String)
    (hne : fileUris ≠ []) :
    ((startEncodingEvents fps fileUris).countP isInitPost = 1 ∧
      (startEncodingEvents fps fileUris).head? =
        some (EncEvent.post (PostedMsg.initEncoder fps (95 / 100 : ℚ) fileUris.length))) ∧
    ((batchesOf (startEncodingEvents fps fileUris)).map (fun b => b.map Prod.snd)).flatten
        = fileUris ∧
    ((∀ b ∈ (batchesOf (startEncodingEvents fps fileUris)).dropLast,
        b.length = BATCH_SIZE) ∧
      ∀ b ∈ batchesOf (startEncodingEvents fps fileUris), b ≠ [] ∧ b.length ≤ BATCH_SIZE) ∧
    sleepFollowsEachBatch (startEncodingEvents fps fileUris) = true ∧
    ((startEncodingEvents fps fileUris).countP isFinalizePost = 1 ∧
      (startEncodingEvents fps fileUris).getLast? =
        some (EncEvent.post PostedMsg.finalizeEncoding)) := by
  have hempty : fileUris.isEmpty = false := by
    cases fileUris with
    | nil => exact absurd rfl hne
    | cons a l => exact List.isEmpty_cons
  set tb := (fileUris.length + BATCH_SIZE - 1) / BATCH_SIZE with htb
  have hevs : startEncodingEvents fps fileUris =
      EncEvent.post (PostedMsg.initEncoder fps (95 / 100 : ℚ) fileUris.length)
        :: EncEvent.sleep 250
        :: (batchEvents tb 0 fileUris ++ [EncEvent.post PostedMsg.finalizeEncoding]) := by
    rw [startEncodingEvents, if_neg (by simp [hempty])]
  have hbatches : batchesOf (startEncodingEvents fps fileUris) =
      batchesOf (batchEvents tb 0 fileUris) := by
    rw [hevs, batchesOf, List.filterMap_cons, List.filterMap_cons, List.filterMap_append]
    simp [EncEvent.batchImages, batchesOf]
  refine ⟨⟨?_, ?_⟩, ?_, ⟨?_, ?_⟩, ?_, ⟨?_, ?_⟩⟩
  · rw [hevs]
    simp [List.countP_cons, List.countP_append, isInitPost,
      (batchEvents_no_init_no_finalize tb 0 fileUris).1]
  · rw [hevs]
    rfl
  · rw [hbatches]
    exact batchEvents_join tb 0 fileUris
  · rw [hbatches]
    exact batchesOf_batchEvents_full tb 0 fileUris
  · rw [hbatches]
    exact batchesOf_batchEvents_sizes tb 0 fileUris
  · rw [hevs]
    rw [sleepFollowsEachBatch, sleepFollowsEachBatch]
    simp [isBatchPost, sleepFollowsEachBatch_batchEvents tb 0 fileUris]
  · rw [hevs]
    simp [List.countP_cons, List.countP_append, isFinalizePost,
      (batchEvents_no_init_no_finalize tb 0 fileUris).2]
  · rw [hevs, ← List.cons_append, ← List.cons_append]
    exact List.getLast?_concat _

/-- Witness for C4 at the concrete 12-file listing `sampleFiles`. -/
theorem startEncoding_message_protocol_witness :
    ((startEncodingEvents 30 sampleFiles).countP isInitPost = 1 ∧
      (startEncodingEvents 30 sampleFiles).head? =
        some (EncEvent.post (PostedMsg.initEncoder 30 (95 / 100 : ℚ) sampleFiles.length))) ∧
    ((batchesOf (startEncodingEvents 30 sampleFiles)).map (fun b => b.map Prod.snd)).flatten
        = sampleFiles ∧
    ((∀ b ∈ (batchesOf (startEncodingEvents 30 sampleFiles)).dropLast,
        b.length = BATCH_SIZE) ∧
      ∀ b ∈ batchesOf (startEncodingEvents 30 sampleFiles), b ≠ [] ∧ b.length ≤ BATCH_SIZE) ∧
    sleepFollowsEachBatch (startEncodingEvents 30 sampleFiles) = true ∧
    ((startEncodingEvents 30 sampleFiles).countP isFinalizePost = 1 ∧
      (startEncodingEvents 30 sampleFiles).getLast? =
        some (EncEvent.post PostedMsg.finalizeEncoding)) :=
  startEncoding_message_protocol 30 sampleFiles (by decide)

/-- C5: a `video` envelope is committed by exactly one write of the complete
base64 payload to the timestamp-named file in the app-private documents
directory, and `videoUri` / status `Video ready` are set only on success;
when the write fails, no write is recorded, and `videoUri` and `status` are
unchanged. -/
theorem video_message_commits_once (docDir : String) (now : Nat) (ts : String)
    (st : EncoderState) (videoData : String) :
    ((handleMessage docDir now ts true st (WVMessage.video videoData)).1.videoUri =
        some (docDir ++ "output_" ++ toString now ++ ".mp4") ∧
      (handleMessage docDir now ts true st (WVMessage.video videoData)).1.status =
        "Video ready" ∧
      (handleMessage docDir now ts true st (WVMessage.video videoData)).2 =
        [⟨docDir ++ "output_" ++ toString now ++ ".mp4", base64Payload videoData⟩]) ∧
    ((handleMessage docDir now ts false st (WVMessage.video videoData)).1.videoUri =
        st.videoUri ∧
      (handleMessage docDir now ts false st (WVMessage.video videoData)).1.status =
        st.status ∧
      (handleMessage docDir now ts false st (WVMessage.video videoData)).2 = []) :=
  ⟨⟨rfl, rfl, rfl⟩, rfl, rfl, rfl⟩

/-- C7: an `error` envelope from the renderer sets the status to
`Error: <message>` and modifies neither `videoUri` nor `progress`, performs
no write and no retry; the catch branch of `startEncoding` likewise only sets
the status to `Error: <message>`. -/
theorem error_branch_status_only (docDir : String) (now : Nat) (ts : String)
    (writeOk : Bool) (st : EncoderState) (message : String) :
    ((handleMessage docDir now ts writeOk st (WVMessage.error message)).1.status =
        "Error: " ++ message ∧
      (handleMessage docDir now ts writeOk st (WVMessage.error message)).1.videoUri =
        st.videoUri ∧
      (handleMessage docDir now ts writeOk st (WVMessage.error message)).1.progress =
        st.progress ∧
      (handleMessage docDir now ts writeOk st (WVMessage.error message)).2 = []) ∧
    ((startEncodingCatch st message).status = "Error: " ++ message ∧
      (startEncodingCatch st message).videoUri = st.videoUri ∧
      (startEncodingCatch st message).progress = st.progress) :=
  ⟨⟨rfl, rfl, rfl, rfl⟩, rfl, rfl, rfl⟩

/-- C9: `createVideo` throws `No input files provided` if and only if the
file list is absent or empty, and when some listed file does not exist it
throws `File not found: <uri>` for such a file (the first missing one). -/
theorem createVideo_validates_input :
    (∀ (fileUris : Option (List String)) (fileExistsOn : String → Bool),
      WebViewVideoEncoder.createVideo fileUris fileExistsOn =
          Except.error "No input files provided" ↔
        fileUris = none ∨ fileUris = some []) ∧
    (∀ (l : List String) (fileExistsOn : String → Bool),
      (∃ u ∈ l, fileExistsOn u = false) →
      ∃ u ∈ l, fileExistsOn u = false ∧
        WebViewVideoEncoder.createVideo (some l) fileExistsOn =
          Except.error ("File not found: " ++ u)) := by
  have hnf : ∀ u : String, ("File not found: " ++ u) ≠ "No input files provided" := by
    intro u h
    have h3 := congrArg String.data h
    rw [String.data_append] at h3
    rw [show "File not found: ".data =
        ['F', 'i', 'l', 'e', ' ', 'n', 'o', 't', ' ', 'f', 'o', 'u', 'n', 'd', ':', ' ']
      from rfl] at h3
    simp at h3
  constructor
  · intro fileUris fileExistsOn
    constructor
    · intro h
      cases fileUris with
      | none => exact Or.inl rfl
      | some l =>
        cases l with
        | nil => exact Or.inr rfl
        | cons a t =>
          exfalso
          rw [WebViewVideoEncoder.createVideo,
            if_neg (by simp [List.isEmpty_cons])] at h
          cases hf : (a :: t).find? (fun u => !fileExistsOn u) with
          | none =>
            rw [hf] at h
            exact Except.noConfusion h
          | some u =>
            rw [hf] at h
            have h2 : ("File not found: " ++ u) = "No input files provided" := by
              injection h
            exact hnf u h2
    · rintro (rfl | rfl) <;> rfl
  · intro l fileExistsOn hex
    obtain ⟨u0, hu0mem, hu0⟩ := hex
    have hfind : (l.find? (fun u => !fileExistsOn u)).isSome := by
      rcases hsome : l.find? (fun u => !fileExistsOn u) with _ | u
      · exfalso
        have h := List.find?_eq_none.mp hsome u0 hu0mem
        simp [hu0] at h
      · rfl
    obtain ⟨u, hu⟩ := Option.isSome_iff_exists.mp hfind
    have hmem : u ∈ l := List.mem_of_find?_eq_some hu
    refine ⟨u, hmem, ?_, ?_⟩
    · have h := List.find?_some hu
      simpa using h
    · have hnonempty : l.isEmpty = false := by
        cases l with
        | nil => cases hu0mem
        | cons a t => exact List.isEmpty_cons
      rw [WebViewVideoEncoder.createVideo, if_neg (by simp [hnonempty]), hu]

/-- Witness for C9 at a concrete input: with a file-system oracle on which no
file exists, the single listed file is reported missing. -/
theorem createVideo_validates_input_witness :
    ∃ u ∈ ["a.png"], (fun _ : String => false) u = false ∧
      WebViewVideoEncoder.createVideo (some ["a.png"]) (fun _ : String => false) =
        Except.error ("File not found: " ++ u) :=
  createVideo_validates_input.2 ["a.png"] (fun _ : String => false)
    ⟨"a.png", by simp, rfl⟩

end AnimationSave
